import Mathlib

/-
Shallow embedding of the GraphQL-lab server (src/index.js together with the
mongoose models in src/models): the document store, the query shaping of
getAllStudents/getAllCourses, the auth-gated mutations, and the per-request
context builder.  Ids (mongo ObjectIds) are modelled as Nat; collections as
lists of documents.
-/

set_option autoImplicit false

namespace GraphQLLab

universe u

variable {α : Type u}

/-- A student document as declared by the mongoose student schema
(src/unnamed/part_000, lines 3-8): `name`, unique `email`, `age`, optional
`major`.  The schema declares no `courses` path, so a student document never
stores course references; under mongoose's default strict mode, update
operators targeting `courses` are stripped before they reach the store. -/
structure Student where
  id : Nat
  name : String
  email : String
  age : Int
  major : Option String
deriving Repr, DecidableEq

/-- A course document as declared by the mongoose course schema
(src/unnamed/part_000, lines 13-19): `title`, unique `code`, `credits`
(validated 1..6 on save), `instructor`, and a `students` array of Student
ObjectId references. -/
structure Course where
  id : Nat
  title : String
  code : String
  credits : Int
  instructor : String
  students : List Nat
deriving Repr, DecidableEq

/-- The document store: the Student and Course collections. -/
structure Store where
  students : List Student
  courses : List Course
deriving Repr, DecidableEq

/-- The verified JWT payload attached to the request context: the `{ id, email }`
claims signed at login/signup (src/index.js, lines 198, 212). -/
structure AuthUser where
  id : Nat
  email : String
deriving Repr, DecidableEq

/-- Per-request resolver context: `{ user }` when a bearer token verified,
`{}` otherwise. -/
structure Context where
  user : Option AuthUser
deriving Repr, DecidableEq

/-- Errors thrown by the resolvers: `AuthenticationError` from the auth gate,
and the store-boundary validation failure of the course schema's credits
range on save. -/
inductive GQLError where
  | authenticationError (msg : String)
  | validationError (msg : String)
deriving Repr, DecidableEq

deriving instance DecidableEq for Except

/-- A JWT payload: subject id, email and expiry instant. -/
structure TokenPayload where
  id : Nat
  email : String
  exp : Nat
deriving Repr, DecidableEq

/-- A bearer token: either a structurally valid JWT carrying a payload and a
signature string, or a malformed string. -/
inductive Token where
  | signed (payload : TokenPayload) (sig : String)
  | malformed (raw : String)
deriving Repr, DecidableEq

/-- The signature `jwt.sign` computes for a payload under a secret, modelled
as a tag derived from the secret and the claims. -/
def mkSignature (secret : String) (p : TokenPayload) : String :=
  secret ++ "." ++ p.email

/-- `jwt.sign(claims, JWT_SECRET)`. -/
def signToken (secret : String) (p : TokenPayload) : Token :=
  .signed p (mkSignature secret p)

/-- `jwt.verify(token, JWT_SECRET)`: `some payload` on success; `none` models
the throw on a malformed token, a wrong signature, or an expired token. -/
def verifyToken (secret : String) (now : Nat) : Token → Option TokenPayload
  | .malformed _ => none
  | .signed p sig =>
      if sig = mkSignature secret p ∧ now < p.exp then some p else none

/-- The ApolloServer `context` function (src/index.js, lines 285-296): when a
bearer token is present, verify it; degrade to `{}` (anonymous) on absence or
on any verification failure — the try/catch means context building never
raises. -/
def buildContext (secret : String) (now : Nat) (token : Option Token) : Context :=
  match token with
  | some t =>
      match verifyToken secret now t with
      | some p => { user := some { id := p.id, email := p.email } }
      | none => { user := none }
  | none => { user := none }

/-- GraphQL input `StudentFilter` (all fields optional). -/
structure StudentFilter where
  major : Option String := none
  nameContains : Option String := none
  minAge : Option Int := none
  maxAge : Option Int := none
deriving Repr, DecidableEq

/-- GraphQL input `CourseFilter` (all fields optional); `codePre` embeds the
source's code-anchored field (`codePrefix`). -/
structure CourseFilter where
  codePre : Option String := none
  titleContains : Option String := none
  instructor : Option String := none
  minCredits : Option Int := none
  maxCredits : Option Int := none
deriving Repr, DecidableEq

/-- GraphQL input `ListOptions` (all fields optional). -/
structure ListOptions where
  limit : Option Int := none
  offset : Option Int := none
  sortBy : Option String := none
  sortOrder : Option String := none
deriving Repr, DecidableEq

/-- JavaScript truthiness of an optional string (`undefined` and `""` are falsy). -/
def strTruthy : Option String → Bool
  | none => false
  | some s => !(s == "")

/-- JavaScript truthiness of an optional int (`undefined` and `0` are falsy). -/
def intTruthy : Option Int → Bool
  | none => false
  | some n => !(n == 0)

/-- JavaScript `v || d` on an optional int. -/
def intOr (v : Option Int) (d : Int) : Int :=
  match v with
  | some n => if n == 0 then d else n
  | none => d

/-- Prefix test on lowered character lists. -/
def lcPrefixTest : List Char → List Char → Bool
  | [], _ => true
  | _ :: _, [] => false
  | a :: as, b :: bs => a == b && lcPrefixTest as bs

/-- Substring test on lowered character lists. -/
def lcInfixTest (p : List Char) : List Char → Bool
  | [] => p.isEmpty
  | c :: rest => lcPrefixTest p (c :: rest) || lcInfixTest p rest

/-- Case-insensitive substring match, modelling the mongo operator
`{ $regex: pat, $options: "i" }` with a literal pattern. -/
def containsCI (pat s : String) : Bool :=
  lcInfixTest pat.toLower.data s.toLower.data

/-- Case-insensitive anchored-at-start match, modelling
`{ $regex: "^" + pat, $options: "i" }`. -/
def startsWithCI (pat s : String) : Bool :=
  lcPrefixTest pat.toLower.data s.toLower.data

/-- One query clause keyed on an optional string filter field: the source adds
the clause only when the field is truthy (src/index.js, lines 147-149,
170-174). -/
def strClause (v : Option String) (test : String → Bool) : Bool :=
  if strTruthy v then test (v.getD "") else true

/-- One query clause keyed on an optional int filter field: the source adds
the clause only when the field is truthy (src/index.js, lines 150-154,
175-179). -/
def intClause (v : Option Int) (test : Int → Bool) : Bool :=
  if intTruthy v then test (v.getD 0) else true

/-- The predicate built by `getAllStudents` (src/index.js, lines 146-154). -/
def matchesStudent (f : StudentFilter) (s : Student) : Bool :=
  strClause f.major (fun m => s.major == some m) &&
  strClause f.nameContains (fun p => containsCI p s.name) &&
  intClause f.minAge (fun a => decide (a ≤ s.age)) &&
  intClause f.maxAge (fun b => decide (s.age ≤ b))

/-- The predicate built by `getAllCourses` (src/index.js, lines 169-179);
`codePre` embeds the source's code-anchored filter field. -/
def matchesCourse (f : CourseFilter) (c : Course) : Bool :=
  strClause f.instructor (fun m => c.instructor == m) &&
  strClause f.titleContains (fun p => containsCI p c.title) &&
  strClause f.codePre (fun p => startsWithCI p c.code) &&
  intClause f.minCredits (fun a => decide (a ≤ c.credits)) &&
  intClause f.maxCredits (fun b => decide (c.credits ≤ b))

/-- String order through `compare`. -/
def strLe (a b : String) : Bool := !(compare a b == Ordering.gt)

/-- Order on optional strings: a missing field sorts before any present value. -/
def optStrLe (a b : Option String) : Bool :=
  match a, b with
  | none, _ => true
  | some _, none => false
  | some x, some y => strLe x y

/-- Ascending comparison of two students on a dynamic `sortBy` field name; an
unknown field imposes no order. -/
def studentFieldLe (field : String) (a b : Student) : Bool :=
  match field with
  | "name" => strLe a.name b.name
  | "email" => strLe a.email b.email
  | "age" => decide (a.age ≤ b.age)
  | "major" => optStrLe a.major b.major
  | _ => true

/-- Ascending comparison of two courses on a dynamic `sortBy` field name. -/
def courseFieldLe (field : String) (a b : Course) : Bool :=
  match field with
  | "title" => strLe a.title b.title
  | "code" => strLe a.code b.code
  | "credits" => decide (a.credits ≤ b.credits)
  | "instructor" => strLe a.instructor b.instructor
  | _ => true

/-- Insert into a sorted list (the sorting primitive of the model). -/
def insertLe (le : α → α → Bool) (x : α) : List α → List α
  | [] => [x]
  | y :: ys => if le x y then x :: y :: ys else y :: insertLe le x ys

/-- Insertion sort by a boolean comparison. -/
def sortWith (le : α → α → Bool) : List α → List α
  | [] => []
  | x :: xs => insertLe le x (sortWith le xs)

/-- The `.sort(sort)` stage (src/index.js, lines 156-159, 181-184): with no
truthy `sortBy` the sort object is empty and store order is kept;
`sortOrder === "DESC"` flips the comparison, anything else sorts ascending. -/
def applySort (le : String → α → α → Bool) (opts : ListOptions) (l : List α) : List α :=
  if strTruthy opts.sortBy then
    if opts.sortOrder == some "DESC" then
      sortWith (fun a b => le (opts.sortBy.getD "") b a) l
    else
      sortWith (fun a b => le (opts.sortBy.getD "") a b) l
  else l

/-- `Math.min(options.limit || 10, 50)` (src/index.js, lines 161, 186). -/
def effectiveLimit (opts : ListOptions) : Int :=
  min (intOr opts.limit 10) 50

/-- `options.offset || 0` (src/index.js, lines 162, 187). -/
def effectiveOffset (opts : ListOptions) : Int :=
  intOr opts.offset 0

/-- Resolver `getAllStudents` (src/index.js, lines 144-165):
filter, then sort, then `.skip(offset).limit(limit)`. -/
def getAllStudents (f : StudentFilter) (opts : ListOptions) (st : Store) : List Student :=
  (((applySort studentFieldLe opts (st.students.filter (matchesStudent f))).drop
      (effectiveOffset opts).toNat).take (effectiveLimit opts).toNat)

/-- Resolver `getAllCourses` (src/index.js, lines 167-190). -/
def getAllCourses (f : CourseFilter) (opts : ListOptions) (st : Store) : List Course :=
  (((applySort courseFieldLe opts (st.courses.filter (matchesCourse f))).drop
      (effectiveOffset opts).toNat).take (effectiveLimit opts).toNat)

/-- Resolver `getStudent` (src/index.js, line 166): `findById`. -/
def getStudent (st : Store) (id : Nat) : Option Student :=
  st.students.find? (fun s => s.id == id)

/-- Resolver `getCourse` (src/index.js, line 191): `findById`. -/
def getCourse (st : Store) (id : Nat) : Option Course :=
  st.courses.find? (fun c => c.id == id)

/-- `findByIdAndUpdate`: rewrite the first document matching the id (mongo
`_id` keys are unique); a missing id is a no-op. -/
def updateFirstBy (key : α → Nat) (i : Nat) (f : α → α) : List α → List α
  | [] => []
  | x :: xs => if key x == i then f x :: xs else x :: updateFirstBy key i f xs

/-- `findByIdAndDelete`: remove the first document matching the id. -/
def removeFirstBy (key : α → Nat) (i : Nat) : List α → List α
  | [] => []
  | x :: xs => if key x == i then xs else x :: removeFirstBy key i xs

/-- A fresh id the store assigns on insert. -/
def freshId (ids : List Nat) : Nat :=
  ids.foldr (fun a b => max a b) 0 + 1

/-- `$pull` of a value from an id array: remove every occurrence. -/
def pullAll (v : Nat) (l : List Nat) : List Nat :=
  l.filter (fun x => !(x == v))

/-- `$addToSet` of a value into an id array: append iff absent. -/
def addToSet (v : Nat) (l : List Nat) : List Nat :=
  if v ∈ l then l else l ++ [v]

/-- GraphQL input `StudentUpdateInput` (all fields optional). -/
structure StudentUpdateInput where
  name : Option String := none
  email : Option String := none
  age : Option Int := none
  major : Option String := none
deriving Repr, DecidableEq

/-- GraphQL input `CourseUpdateInput` (all fields optional). -/
structure CourseUpdateInput where
  title : Option String := none
  code : Option String := none
  credits : Option Int := none
  instructor : Option String := none
deriving Repr, DecidableEq

/-- Apply a partial `StudentUpdateInput` the way `findByIdAndUpdate(id, input)`
does: set exactly the supplied paths, leave the rest of the document as it
was. -/
def applyStudentUpdate (input : StudentUpdateInput) (s : Student) : Student :=
  { s with
    name := input.name.getD s.name
    email := input.email.getD s.email
    age := input.age.getD s.age
    major := match input.major with | some m => some m | none => s.major }

/-- Apply a partial `CourseUpdateInput` the way `findByIdAndUpdate(id, input)`
does (`runValidators` is off by default, so the credits range is not
re-checked here). -/
def applyCourseUpdate (input : CourseUpdateInput) (c : Course) : Course :=
  { c with
    title := input.title.getD c.title
    code := input.code.getD c.code
    credits := input.credits.getD c.credits
    instructor := input.instructor.getD c.instructor }

/-- Mutation `addStudent` (src/index.js, lines 219-224): auth gate, then save
a new student document (the store assigns a fresh id). -/
def addStudent (ctx : Context) (st : Store) (name email : String) (age : Int)
    (major : Option String) : Except GQLError Student × Store :=
  if ctx.user.isNone then
    (.error (.authenticationError "UNAUTHENTICATED"), st)
  else
    let s : Student :=
      { id := freshId (st.students.map Student.id), name := name, email := email,
        age := age, major := major }
    (.ok s, { st with students := st.students ++ [s] })

/-- Mutation `updateStudent` (src/index.js, lines 225-228): auth gate, then
`findByIdAndUpdate(id, input, { new: true })`, returning the updated document
(null when the id matches nothing). -/
def updateStudent (ctx : Context) (st : Store) (id : Nat) (input : StudentUpdateInput) :
    Except GQLError (Option Student) × Store :=
  if ctx.user.isNone then
    (.error (.authenticationError "UNAUTHENTICATED"), st)
  else
    let students' := updateFirstBy Student.id id (applyStudentUpdate input) st.students
    (.ok (students'.find? (fun s => s.id == id)), { st with students := students' })

/-- Mutation `deleteStudent` (src/index.js, lines 229-235): auth gate, then
`Course.updateMany({students: id}, {$pull: {students: id}})` — prune the id
from every course's students array — followed by `findByIdAndDelete(id)`. -/
def deleteStudent (ctx : Context) (st : Store) (id : Nat) :
    Except GQLError Bool × Store :=
  if ctx.user.isNone then
    (.error (.authenticationError "UNAUTHENTICATED"), st)
  else
    let courses' := st.courses.map (fun c => { c with students := pullAll id c.students })
    let students' := removeFirstBy Student.id id st.students
    (.ok true, { students := students', courses := courses' })

/-- Mutation `addCourse` (src/index.js, lines 236-241): auth gate, then save;
the course schema validates `credits` within 1..6 on save. -/
def addCourse (ctx : Context) (st : Store) (title code : String) (credits : Int)
    (instructor : String) : Except GQLError Course × Store :=
  if ctx.user.isNone then
    (.error (.authenticationError "UNAUTHENTICATED"), st)
  else if credits < 1 ∨ 6 < credits then
    (.error (.validationError "credits out of range"), st)
  else
    let c : Course :=
      { id := freshId (st.courses.map Course.id), title := title, code := code,
        credits := credits, instructor := instructor, students := [] }
    (.ok c, { st with courses := st.courses ++ [c] })

/-- Mutation `updateCourse` (src/index.js, lines 242-245). -/
def updateCourse (ctx : Context) (st : Store) (id : Nat) (input : CourseUpdateInput) :
    Except GQLError (Option Course) × Store :=
  if ctx.user.isNone then
    (.error (.authenticationError "UNAUTHENTICATED"), st)
  else
    let courses' := updateFirstBy Course.id id (applyCourseUpdate input) st.courses
    (.ok (courses'.find? (fun c => c.id == id)), { st with courses := courses' })

/-- Mutation `deleteCourse` (src/index.js, lines 246-252): auth gate, then
`Student.updateMany({courses: id}, {$pull: {courses: id}})` — the student
schema declares no `courses` path, so mongoose strict mode strips the `$pull`
and the student documents are unchanged — followed by `findByIdAndDelete(id)`. -/
def deleteCourse (ctx : Context) (st : Store) (id : Nat) :
    Except GQLError Bool × Store :=
  if ctx.user.isNone then
    (.error (.authenticationError "UNAUTHENTICATED"), st)
  else
    let students' := st.students
    let courses' := removeFirstBy Course.id id st.courses
    (.ok true, { students := students', courses := courses' })

/-- Mutation `enrollStudent` (src/index.js, lines 255-265): auth gate; then
`Student.findByIdAndUpdate(studentId, {$addToSet: {courses: courseId}})` —
the student schema declares no `courses` path, so mongoose strict mode strips
the operator and the student document is unchanged — then
`Course.findByIdAndUpdate(courseId, {$addToSet: {students: studentId}})`;
finally return `Student.findById(studentId)`. -/
def enrollStudent (ctx : Context) (st : Store) (studentId courseId : Nat) :
    Except GQLError (Option Student) × Store :=
  if ctx.user.isNone then
    (.error (.authenticationError "UNAUTHENTICATED"), st)
  else
    let students' := st.students
    let courses' := updateFirstBy Course.id courseId
      (fun c => { c with students := addToSet studentId c.students }) st.courses
    let st' : Store := { students := students', courses := courses' }
    (.ok (st'.students.find? (fun s => s.id == studentId)), st')

/-- Mutation `unenrollStudent` (src/index.js, lines 266-275): like enroll with
`$pull` on both sides; the student-side `$pull` is likewise stripped. -/
def unenrollStudent (ctx : Context) (st : Store) (studentId courseId : Nat) :
    Except GQLError (Option Student) × Store :=
  if ctx.user.isNone then
    (.error (.authenticationError "UNAUTHENTICATED"), st)
  else
    let students' := st.students
    let courses' := updateFirstBy Course.id courseId
      (fun c => { c with students := pullAll studentId c.students }) st.courses
    let st' : Store := { students := students', courses := courses' }
    (.ok (st'.students.find? (fun s => s.id == studentId)), st')

/-- The course reference set stored on a student document: the student schema
declares no `courses` path, so it is always empty. -/
def studentCourses (_s : Student) : List Nat := []

/-- Every student id referenced from a course's students array belongs to an
existing student document. -/
def noDanglingB (st : Store) : Bool :=
  st.courses.all (fun c => c.students.all (fun sid => st.students.any (fun s => s.id == sid)))

/-- Concrete documents and stores used to evaluate the operations. -/
def anaStudent : Student :=
  { id := 1, name := "Ana", email := "a@x.com", age := 20, major := none }

def algoCourse : Course :=
  { id := 2, title := "Algo", code := "CS1", credits := 3, instructor := "I", students := [] }

def enrollDemoStore : Store :=
  { students := [anaStudent], courses := [algoCourse] }

def enrolledStore : Store :=
  { students := [anaStudent], courses := [{ algoCourse with students := [1] }] }

def authedCtx : Context :=
  { user := some { id := 9, email := "u@x.com" } }

def negStudent : Student :=
  { id := 1, name := "n", email := "e", age := -1, major := none }

def negStore : Store :=
  { students := [negStudent], courses := [] }

def danglingStore : Store :=
  { students := [], courses := [algoCourse] }

def store12 : Store :=
  { students := (List.range 12).map
      (fun i => { id := i, name := "s", email := "e", age := 20, major := none }),
    courses := [] }

/- Helper lemmas about the list-level store operations. -/

theorem mem_insertLe (le : α → α → Bool) (x a : α) (l : List α) :
    a ∈ insertLe le x l ↔ a = x ∨ a ∈ l := by
  induction l with
  | nil => simp [insertLe]
  | cons y ys ih =>
    simp only [insertLe]
    split
    · simp [List.mem_cons]
    · simp only [List.mem_cons, ih]
      tauto

theorem length_insertLe (le : α → α → Bool) (x : α) (l : List α) :
    (insertLe le x l).length = l.length + 1 := by
  induction l with
  | nil => simp [insertLe]
  | cons y ys ih =>
    simp only [insertLe]
    split <;> simp [ih]

theorem mem_sortWith (le : α → α → Bool) (a : α) (l : List α) :
    a ∈ sortWith le l ↔ a ∈ l := by
  induction l with
  | nil => simp [sortWith]
  | cons x xs ih => simp [sortWith, mem_insertLe, ih]

theorem length_sortWith (le : α → α → Bool) (l : List α) :
    (sortWith le l).length = l.length := by
  induction l with
  | nil => rfl
  | cons x xs ih => simp [sortWith, length_insertLe, ih]

theorem mem_applySort (le : String → α → α → Bool) (opts : ListOptions)
    (a : α) (l : List α) : a ∈ applySort le opts l ↔ a ∈ l := by
  unfold applySort
  split
  · split <;> exact mem_sortWith _ a l
  · exact Iff.rfl

theorem length_applySort (le : String → α → α → Bool) (opts : ListOptions)
    (l : List α) : (applySort le opts l).length = l.length := by
  unfold applySort
  split
  · split <;> exact length_sortWith _ l
  · rfl

theorem strClause_iff (v : Option String) (test : String → Bool) :
    strClause v test = true ↔ ∀ m, v = some m → m ≠ "" → test m = true := by
  cases v with
  | none => simp [strClause, strTruthy]
  | some m =>
    by_cases h : m = "" <;>
      simp [strClause, strTruthy, h]

theorem intClause_iff (v : Option Int) (test : Int → Bool) :
    intClause v test = true ↔ ∀ n, v = some n → n ≠ 0 → test n = true := by
  cases v with
  | none => simp [intClause, intTruthy]
  | some n =>
    by_cases h : n = 0 <;>
      simp [intClause, intTruthy, h]

theorem mem_updateFirstBy (key : α → Nat) (i : Nat) (f : α → α) (l : List α)
    (a : α) (h : a ∈ updateFirstBy key i f l) : a ∈ l ∨ ∃ x ∈ l, a = f x := by
  induction l with
  | nil => simp [updateFirstBy] at h
  | cons x xs ih =>
    simp only [updateFirstBy] at h
    split at h
    · rcases List.mem_cons.1 h with h1 | h1
      · exact Or.inr ⟨x, List.mem_cons_self x xs, h1⟩
      · exact Or.inl (List.mem_cons_of_mem x h1)
    · rcases List.mem_cons.1 h with h1 | h1
      · exact Or.inl (h1 ▸ List.mem_cons_self x xs)
      · rcases ih h1 with h2 | ⟨y, hy, hfy⟩
        · exact Or.inl (List.mem_cons_of_mem x h2)
        · exact Or.inr ⟨y, List.mem_cons_of_mem x hy, hfy⟩

theorem mem_updateFirstBy_of_ne (key : α → Nat) (i : Nat) (f : α → α)
    (l : List α) (a : α) (ha : a ∈ l) (hne : key a ≠ i) :
    a ∈ updateFirstBy key i f l := by
  induction l with
  | nil => simp at ha
  | cons x xs ih =>
    simp only [updateFirstBy]
    rcases List.mem_cons.1 ha with h1 | h1
    · subst h1
      rw [if_neg (by simpa using hne)]
      exact List.mem_cons_self _ _
    · split
      · exact List.mem_cons_of_mem _ h1
      · exact List.mem_cons_of_mem x (ih h1)

theorem updateFirstBy_eq_self (key : α → Nat) (i : Nat) (f : α → α)
    (l : List α) (h : ∀ x ∈ l, key x = i → f x = x) :
    updateFirstBy key i f l = l := by
  induction l with
  | nil => rfl
  | cons x xs ih =>
    simp only [updateFirstBy]
    split
    · rw [h x (List.mem_cons_self x xs) (by simp_all)]
    · rw [ih (fun y hy => h y (List.mem_cons_of_mem x hy))]

theorem updateFirstBy_self (key : α → Nat) (i : Nat) (f : α → α)
    (hk : ∀ x, key (f x) = key x) (hf : ∀ x, f (f x) = f x) (l : List α) :
    updateFirstBy key i f (updateFirstBy key i f l) = updateFirstBy key i f l := by
  induction l with
  | nil => rfl
  | cons x xs ih =>
    by_cases hx : (key x == i) = true
    · simp [updateFirstBy, hx, hk, hf]
    · simp [updateFirstBy, hx, ih]

theorem find?_updateFirstBy (key : α → Nat) (i : Nat) (f : α → α)
    (hk : ∀ x, key (f x) = key x) (l : List α) :
    (updateFirstBy key i f l).find? (fun x => key x == i) =
      (l.find? (fun x => key x == i)).map f := by
  induction l with
  | nil => rfl
  | cons x xs ih =>
    simp only [updateFirstBy]
    split
    · next hx => simp [List.find?_cons, hk, hx]
    · next hx =>
      simp only [Bool.not_eq_true] at hx
      simp [List.find?_cons, hx, ih]

theorem mem_of_mem_removeFirstBy (key : α → Nat) (i : Nat) (l : List α)
    (a : α) (h : a ∈ removeFirstBy key i l) : a ∈ l := by
  induction l with
  | nil => simp [removeFirstBy] at h
  | cons x xs ih =>
    simp only [removeFirstBy] at h
    split at h
    · exact List.mem_cons_of_mem x h
    · rcases List.mem_cons.1 h with h1 | h1
      · exact h1 ▸ List.mem_cons_self x xs
      · exact List.mem_cons_of_mem x (ih h1)

theorem mem_removeFirstBy_of_ne (key : α → Nat) (i : Nat) (l : List α)
    (a : α) (ha : a ∈ l) (hne : key a ≠ i) : a ∈ removeFirstBy key i l := by
  induction l with
  | nil => simp at ha
  | cons x xs ih =>
    simp only [removeFirstBy]
    rcases List.mem_cons.1 ha with h1 | h1
    · subst h1
      rw [if_neg (by simpa using hne)]
      exact List.mem_cons_self _ _
    · split
      · exact h1
      · exact List.mem_cons_of_mem x (ih h1)

theorem key_ne_of_mem_removeFirstBy (key : α → Nat) (i : Nat) (l : List α)
    (hnd : (l.map key).Nodup) (a : α) (h : a ∈ removeFirstBy key i l) :
    key a ≠ i := by
  induction l with
  | nil => simp [removeFirstBy] at h
  | cons x xs ih =>
    simp only [List.map_cons, List.nodup_cons] at hnd
    simp only [removeFirstBy] at h
    split at h
    · next hx =>
      intro hai
      have hx' : key x = i := by simpa using hx
      exact hnd.1 (by
        rw [hx', ← hai]
        exact List.mem_map_of_mem key h)
    · rcases List.mem_cons.1 h with h1 | h1
      · subst h1
        next hx => simpa using hx
      · exact ih hnd.2 h1

theorem mem_addToSet (v x : Nat) (l : List Nat) :
    x ∈ addToSet v l ↔ x = v ∨ x ∈ l := by
  unfold addToSet
  split
  · next hv =>
    constructor
    · exact Or.inr
    · rintro (rfl | h) <;> assumption
  · simp [or_comm]

theorem addToSet_self (v : Nat) (l : List Nat) :
    addToSet v (addToSet v l) = addToSet v l := by
  by_cases hv : v ∈ l
  · simp [addToSet, hv]
  · have h1 : addToSet v l = l ++ [v] := by simp [addToSet, hv]
    rw [h1]
    simp [addToSet]

theorem nodup_addToSet (v : Nat) (l : List Nat) (h : l.Nodup) :
    (addToSet v l).Nodup := by
  unfold addToSet
  split
  · exact h
  · next hv => simpa [List.nodup_append] using ⟨h, hv⟩

theorem noDanglingB_iff (st : Store) :
    noDanglingB st = true ↔
      ∀ c ∈ st.courses, ∀ sid ∈ c.students, ∃ s, s ∈ st.students ∧ s.id = sid := by
  simp [noDanglingB, List.all_eq_true, List.any_eq_true]

/-- C4: every mutation except signup and login, when invoked with no
authenticated identity in the context, fails with the
AuthenticationError("UNAUTHENTICATED") before any store access, and the store
state returned is exactly the store passed in (no partial side effects). -/
theorem auth_gate_no_side_effects (st : Store) (name email title code instructor : String)
    (age credits : Int) (major : Option String) (id sid cid : Nat)
    (sIn : StudentUpdateInput) (cIn : CourseUpdateInput) :
    addStudent { user := none } st name email age major =
      (.error (.authenticationError "UNAUTHENTICATED"), st) ∧
    updateStudent { user := none } st id sIn =
      (.error (.authenticationError "UNAUTHENTICATED"), st) ∧
    deleteStudent { user := none } st id =
      (.error (.authenticationError "UNAUTHENTICATED"), st) ∧
    addCourse { user := none } st title code credits instructor =
      (.error (.authenticationError "UNAUTHENTICATED"), st) ∧
    updateCourse { user := none } st id cIn =
      (.error (.authenticationError "UNAUTHENTICATED"), st) ∧
    deleteCourse { user := none } st id =
      (.error (.authenticationError "UNAUTHENTICATED"), st) ∧
    enrollStudent { user := none } st sid cid =
      (.error (.authenticationError "UNAUTHENTICATED"), st) ∧
    unenrollStudent { user := none } st sid cid =
      (.error (.authenticationError "UNAUTHENTICATED"), st) :=
  ⟨rfl, rfl, rfl, rfl, rfl, rfl, rfl, rfl⟩

/-- C8: context building is total and verification-gated: a token signed with
the verifying secret and unexpired yields an identity carrying the token's
subject id and email; a missing, malformed, expired or wrongly-signed token
yields the anonymous context, never an exception (buildContext is a total
function). -/
theorem context_building_total (secret : String) (now : Nat) (p : TokenPayload)
    (sig raw : String) :
    (now < p.exp →
        buildContext secret now (some (signToken secret p)) =
          { user := some { id := p.id, email := p.email } }) ∧
    (buildContext secret now none = { user := none }) ∧
    (buildContext secret now (some (.malformed raw)) = { user := none }) ∧
    (p.exp ≤ now →
        buildContext secret now (some (.signed p sig)) = { user := none }) ∧
    (sig ≠ mkSignature secret p →
        buildContext secret now (some (.signed p sig)) = { user := none }) := by
  refine ⟨?_, rfl, rfl, ?_, ?_⟩
  · intro h
    simp [buildContext, verifyToken, signToken, h]
  · intro h
    have hx : ¬(sig = mkSignature secret p ∧ now < p.exp) := by
      rintro ⟨-, h2⟩
      exact absurd h2 (Nat.not_lt.mpr h)
    simp [buildContext, verifyToken, hx]
  · intro h
    have hx : ¬(sig = mkSignature secret p ∧ now < p.exp) := by
      rintro ⟨h1, -⟩
      exact h h1
    simp [buildContext, verifyToken, hx]

/-- Witness for C8 at concrete inputs: a token signed with "s", claims
(id 1, email "e"), expiry 5, verified at time 3 yields that identity; the
same payload verified at time 9 (expired), a malformed token, and a token
with a wrong signature all yield the anonymous context. -/
theorem context_building_checks :
    (buildContext "s" 3 (some (signToken "s" ⟨1, "e", 5⟩)) =
      { user := some { id := 1, email := "e" } }) ∧
    (buildContext "s" 9 (some (.signed ⟨1, "e", 5⟩ "s.e")) = { user := none }) ∧
    (buildContext "s" 3 (some (.malformed "zzz")) = { user := none }) ∧
    (buildContext "s" 3 (some (.signed ⟨1, "e", 5⟩ "bad")) = { user := none }) :=
  ⟨(context_building_total "s" 3 ⟨1, "e", 5⟩ "x" "r").1 (by decide),
   (context_building_total "s" 9 ⟨1, "e", 5⟩ "s.e" "r").2.2.2.1 (by decide),
   (context_building_total "s" 3 ⟨1, "e", 5⟩ "x" "zzz").2.2.1,
   (context_building_total "s" 3 ⟨1, "e", 5⟩ "bad" "r").2.2.2.2 (by decide)⟩

/-- C1: evaluated at the failing input. On a store holding student 1 and
course 2, an authenticated enrollStudent(1, 2) completes and returns the
student, and course 2's students set now contains student 1 — but the student
side stores no course reference at all (the mongoose student schema declares
no `courses` path, so the `$addToSet: \x7bcourses: courseId\x7d` update is
stripped by strict mode): the reference sets are not mutual, although both
entities exist and the operation succeeded. -/
theorem enroll_not_mutual_eval :
    ((enrollStudent authedCtx enrollDemoStore 1 2).1 = .ok (some anaStudent)) ∧
    ((enrollStudent authedCtx enrollDemoStore 1 2).2.courses.map Course.students = [[1]]) ∧
    (∀ s ∈ (enrollStudent authedCtx enrollDemoStore 1 2).2.students,
      (2 : Nat) ∉ studentCourses s) := by
  refine ⟨by decide, by decide, ?_⟩
  intro s _
  simp [studentCourses]

/-- C2 counterexample: with minAge present and equal to 0, the falsy check
drops the bound entirely, so the result is not bounded below by the supplied
value: a student with age -1 is returned. -/
theorem minAge_zero_ignored :
    ¬ (∀ s ∈ getAllStudents { minAge := some 0 } {} negStore, (0 : Int) ≤ s.age) := by
  decide

/-- C2 (amended): omitted filter fields impose no constraint, and a present
nonzero numeric bound is applied independently of the other bound; a present
bound whose value is 0 (or an empty string field) is treated as unset by the
falsy check and imposes no constraint.  Stated as: every record returned by
getAllStudents/getAllCourses satisfies the built predicate, and the predicate
holds iff each present truthy clause holds on its own. -/
theorem filter_clauses_amended (f : StudentFilter) (fc : CourseFilter)
    (opts : ListOptions) (st : Store) (s : Student) (c : Course) :
    (s ∈ getAllStudents f opts st → matchesStudent f s = true) ∧
    (matchesStudent f s = true ↔
      ((∀ m, f.major = some m → m ≠ "" → s.major = some m) ∧
       (∀ p, f.nameContains = some p → p ≠ "" → containsCI p s.name = true) ∧
       (∀ a, f.minAge = some a → a ≠ 0 → a ≤ s.age) ∧
       (∀ b, f.maxAge = some b → b ≠ 0 → s.age ≤ b))) ∧
    (c ∈ getAllCourses fc opts st → matchesCourse fc c = true) ∧
    (matchesCourse fc c = true ↔
      ((∀ m, fc.instructor = some m → m ≠ "" → c.instructor = m) ∧
       (∀ p, fc.titleContains = some p → p ≠ "" → containsCI p c.title = true) ∧
       (∀ p, fc.codePre = some p → p ≠ "" → startsWithCI p c.code = true) ∧
       (∀ a, fc.minCredits = some a → a ≠ 0 → a ≤ c.credits) ∧
       (∀ b, fc.maxCredits = some b → b ≠ 0 → c.credits ≤ b))) := by
  refine ⟨?_, ?_, ?_, ?_⟩
  · intro h
    unfold getAllStudents at h
    have h1 := List.mem_of_mem_take h
    have h2 := List.mem_of_mem_drop h1
    rw [mem_applySort] at h2
    exact (List.mem_filter.1 h2).2
  · simp only [matchesStudent, Bool.and_eq_true, strClause_iff, intClause_iff,
      beq_iff_eq, decide_eq_true_eq]
    tauto
  · intro h
    unfold getAllCourses at h
    have h1 := List.mem_of_mem_take h
    have h2 := List.mem_of_mem_drop h1
    rw [mem_applySort] at h2
    exact (List.mem_filter.1 h2).2
  · simp only [matchesCourse, Bool.and_eq_true, strClause_iff, intClause_iff,
      beq_iff_eq, decide_eq_true_eq]
    tauto

/-- Witness for C2's amended statement: Ana (age 20) is returned under the
filter minAge = 18, the predicate holds on her, and the extracted lower bound
18 ≤ 20 follows through the characterization. -/
theorem filter_clauses_checks :
    matchesStudent { minAge := some 18 } anaStudent = true ∧
    (18 : Int) ≤ anaStudent.age := by
  have h := filter_clauses_amended { minAge := some 18 } {} {} enrollDemoStore
    anaStudent algoCourse
  have h1 : matchesStudent { minAge := some 18 } anaStudent = true := h.1 (by decide)
  exact ⟨h1, (h.2.1.1 h1).2.2.1 18 rfl (by decide)⟩

/-- C5 counterexample: an explicitly requested limit of 0 is not "the
requested limit clamped to a maximum of 50": on a store of 12 students the
call returns 10 records, not min(0, 50) = 0, because the falsy check replaces
0 by the default 10. -/
theorem limit_zero_not_clamped :
    (getAllStudents {} { limit := some 0 } store12).length = 10 ∧
    Int.toNat (min 0 50) = 0 ∧
    (getAllStudents {} { limit := some 0 } store12).length ≠ Int.toNat (min 0 50) := by
  decide

/-- C5 (amended): for every supplied nonzero limit the effective page size is
min(limit, 50) — so limit = 1000 yields at most 50 records — and an absent
(or zero) limit defaults to 10; offset defaults to 0 when absent; no call
ever returns more than 50 records. -/
theorem pagination_amended (opts : ListOptions) (f : StudentFilter)
    (fc : CourseFilter) (st : Store) :
    (∀ n, opts.limit = some n → n ≠ 0 → effectiveLimit opts = min n 50) ∧
    (opts.limit = none → effectiveLimit opts = 10) ∧
    (opts.offset = none → effectiveOffset opts = 0) ∧
    (getAllStudents f opts st).length ≤ 50 ∧
    (getAllCourses fc opts st).length ≤ 50 ∧
    (opts.limit = none →
      (getAllStudents f opts st).length ≤ 10 ∧
      (getAllCourses fc opts st).length ≤ 10) := by
  have hcap : (effectiveLimit opts).toNat ≤ 50 := by
    have h1 : effectiveLimit opts ≤ 50 := min_le_right _ _
    calc (effectiveLimit opts).toNat ≤ (50 : Int).toNat := Int.toNat_le_toNat h1
      _ = 50 := rfl
  have hs : (getAllStudents f opts st).length ≤ (effectiveLimit opts).toNat := by
    unfold getAllStudents
    exact List.length_take_le _ _
  have hc : (getAllCourses fc opts st).length ≤ (effectiveLimit opts).toNat := by
    unfold getAllCourses
    exact List.length_take_le _ _
  refine ⟨?_, ?_, ?_, le_trans hs hcap, le_trans hc hcap, ?_⟩
  · intro n hn h0
    simp [effectiveLimit, intOr, hn, h0]
  · intro hn
    simp [effectiveLimit, intOr, hn]
  · intro ho
    simp [effectiveOffset, intOr, ho]
  · intro hn
    have h10 : effectiveLimit opts = 10 := by simp [effectiveLimit, intOr, hn]
    constructor
    · calc (getAllStudents f opts st).length ≤ (effectiveLimit opts).toNat := hs
        _ = 10 := by rw [h10]; rfl
    · calc (getAllCourses fc opts st).length ≤ (effectiveLimit opts).toNat := hc
        _ = 10 := by rw [h10]; rfl

/-- Witness for C5's amended statement at concrete inputs: limit 1000 clamps
to 50, no limit defaults to 10 and offset to 0, and a 12-record store yields
at most 10 records without a limit. -/
theorem pagination_checks :
    effectiveLimit { limit := some 1000 } = 50 ∧
    effectiveLimit {} = 10 ∧
    effectiveOffset {} = 0 ∧
    (getAllStudents {} {} store12).length ≤ 10 := by
  have h1 := pagination_amended { limit := some 1000 } {} {} store12
  have h2 := pagination_amended {} {} {} store12
  refine ⟨?_, h2.2.1 rfl, h2.2.2.1 rfl, (h2.2.2.2.2.2 rfl).1⟩
  have h3 := h1.1 1000 rfl (by decide)
  rw [h3]
  decide

/-- C10: an explicit limit of 0 is treated as unset by the falsy check: the
effective limit is the default 10, and the page holds min 10 (matching
records after the offset) records — up to 10 records, not an empty page. -/
theorem limit_zero_defaults_to_ten (opts : ListOptions) (f : StudentFilter)
    (fc : CourseFilter) (st : Store) (h : opts.limit = some 0) :
    effectiveLimit opts = 10 ∧
    (getAllStudents f opts st).length =
      min 10 ((st.students.filter (matchesStudent f)).length -
        (effectiveOffset opts).toNat) ∧
    (getAllCourses fc opts st).length =
      min 10 ((st.courses.filter (matchesCourse fc)).length -
        (effectiveOffset opts).toNat) := by
  have hl : effectiveLimit opts = 10 := by simp [effectiveLimit, intOr, h]
  refine ⟨hl, ?_, ?_⟩
  · unfold getAllStudents
    rw [hl, List.length_take, List.length_drop, length_applySort]
    rfl
  · unfold getAllCourses
    rw [hl, List.length_take, List.length_drop, length_applySort]
    rfl

/-- Witness for C10: on a 12-student store, a call with limit explicitly 0
uses the default effective limit 10 and returns min 10 12 = 10 records. -/
theorem limit_zero_defaults_checks :
    effectiveLimit { limit := some 0 } = 10 ∧
    (getAllStudents {} { limit := some 0 } store12).length =
      min 10 ((store12.students.filter (matchesStudent {})).length -
        (effectiveOffset { limit := some 0 }).toNat) := by
  have h := limit_zero_defaults_to_ten { limit := some 0 } {} {} store12 rfl
  exact ⟨h.1, h.2.1⟩

/-- C3 counterexample: enrollStudent with a nonexistent studentId (99) on a
store holding only course 2 completes (the writes are issued without any
existence check) and leaves course 2's students set containing 99 — a
reference to a student that does not exist. -/
theorem enroll_dangling_eval :
    noDanglingB danglingStore = true ∧
    (enrollStudent authedCtx danglingStore 99 2).2.courses.map Course.students = [[99]] ∧
    noDanglingB (enrollStudent authedCtx danglingStore 99 2).2 = false := by
  decide

/-- C3 (amended): deleteStudent and deleteCourse prune the deleted id from
every other entity's reference set and preserve referential integrity
(no reference to a nonexistent entity), and enrollStudent preserves it
whenever the enrolled student exists; enrollStudent performs no existence
check, however, so with a nonexistent studentId it leaves a dangling
reference in the course's students set. -/
theorem no_dangling_preserved (ctx : Context) (st : Store) (id sid cid : Nat)
    (hd : noDanglingB st = true) :
    noDanglingB (deleteStudent ctx st id).2 = true ∧
    noDanglingB (deleteCourse ctx st id).2 = true ∧
    ((∃ s ∈ st.students, s.id = sid) →
      noDanglingB (enrollStudent ctx st sid cid).2 = true) := by
  cases hu : ctx.user with
  | none =>
    refine ⟨?_, ?_, fun _ => ?_⟩ <;> simpa [deleteStudent, deleteCourse, enrollStudent, hu] using hd
  | some u =>
    have hd' := (noDanglingB_iff st).1 hd
    refine ⟨?_, ?_, ?_⟩
    · have hst : (deleteStudent ctx st id).2 =
        { students := removeFirstBy Student.id id st.students,
          courses := st.courses.map (fun c => { c with students := pullAll id c.students }) } := by
        simp [deleteStudent, hu]
      rw [hst, noDanglingB_iff]
      intro c' hc' x hx
      obtain ⟨c0, hc0, rfl⟩ := List.mem_map.1 hc'
      have hx' := List.mem_filter.1 hx
      have hxid : x ≠ id := by simpa using hx'.2
      obtain ⟨s, hs, hsid⟩ := hd' c0 hc0 x hx'.1
      exact ⟨s, mem_removeFirstBy_of_ne Student.id id st.students s hs (by simpa [hsid]), hsid⟩
    · have hst : (deleteCourse ctx st id).2 =
        { students := st.students, courses := removeFirstBy Course.id id st.courses } := by
        simp [deleteCourse, hu]
      rw [hst, noDanglingB_iff]
      intro c' hc' x hx
      exact hd' c' (mem_of_mem_removeFirstBy Course.id id st.courses c' hc') x hx
    · rintro ⟨s0, hs0, rfl⟩
      have hst : (enrollStudent ctx st s0.id cid).2 =
        { students := st.students,
          courses := updateFirstBy Course.id cid
            (fun c => { c with students := addToSet s0.id c.students }) st.courses } := by
        simp [enrollStudent, hu]
      rw [hst, noDanglingB_iff]
      intro c' hc' x hx
      rcases mem_updateFirstBy Course.id cid _ st.courses c' hc' with h1 | ⟨c0, hc0, rfl⟩
      · exact hd' c' h1 x hx
      · rcases (mem_addToSet s0.id x c0.students).1 hx with rfl | h2
        · exact ⟨s0, hs0, rfl⟩
        · exact hd' c0 hc0 x h2

/-- Witness for C3's amended statement: deleting student 1 from a store where
course 2 references it, deleting course 2, and enrolling the existing student
1 all preserve referential integrity. -/
theorem no_dangling_checks :
    noDanglingB (deleteStudent authedCtx enrolledStore 1).2 = true ∧
    noDanglingB (deleteCourse authedCtx enrolledStore 2).2 = true ∧
    noDanglingB (enrollStudent authedCtx enrollDemoStore 1 2).2 = true := by
  have h1 := no_dangling_preserved authedCtx enrolledStore 1 1 2 (by decide)
  have h2 := no_dangling_preserved authedCtx enrolledStore 2 1 2 (by decide)
  have h3 := no_dangling_preserved authedCtx enrollDemoStore 1 1 2 (by decide)
  exact ⟨h1.1, h2.2.1, h3.2.2 ⟨anaStudent, by decide, rfl⟩⟩

/-- C6: after an authenticated deleteStudent(id), no course in the store
references id (the bulk pull) and no student with id remains; after
deleteCourse(id), no student references the deleted course and no course with
id remains. -/
theorem cascade_delete (ctx : Context) (st : Store) (id : Nat)
    (h : ctx.user ≠ none) :
    ((deleteStudent ctx st id).1 = .ok true) ∧
    (∀ c ∈ (deleteStudent ctx st id).2.courses, id ∉ c.students) ∧
    ((st.students.map Student.id).Nodup →
      ∀ s ∈ (deleteStudent ctx st id).2.students, s.id ≠ id) ∧
    ((deleteCourse ctx st id).1 = .ok true) ∧
    (∀ s ∈ (deleteCourse ctx st id).2.students, id ∉ studentCourses s) ∧
    ((st.courses.map Course.id).Nodup →
      ∀ c ∈ (deleteCourse ctx st id).2.courses, c.id ≠ id) := by
  cases hu : ctx.user with
  | none => exact absurd hu h
  | some u =>
    refine ⟨by simp [deleteStudent, hu], ?_, ?_, by simp [deleteCourse, hu], ?_, ?_⟩
    · intro c hc
      simp only [deleteStudent, hu] at hc
      simp only [Option.isNone_some, Bool.false_eq_true, if_false] at hc
      obtain ⟨c0, _, rfl⟩ := List.mem_map.1 hc
      intro hmem
      have := (List.mem_filter.1 hmem).2
      simp at this
    · intro hnd s hs
      simp only [deleteStudent, hu, Option.isNone_some, Bool.false_eq_true, if_false] at hs
      exact key_ne_of_mem_removeFirstBy Student.id id st.students hnd s hs
    · intro s _
      simp [studentCourses]
    · intro hnd c hc
      simp only [deleteCourse, hu, Option.isNone_some, Bool.false_eq_true, if_false] at hc
      exact key_ne_of_mem_removeFirstBy Course.id id st.courses hnd c hc

/-- Witness for C6: deleting student 1 from a store in which course 2
references it leaves no course referencing 1 and no student with id 1. -/
theorem cascade_delete_checks :
    (∀ c ∈ (deleteStudent authedCtx enrolledStore 1).2.courses, 1 ∉ c.students) ∧
    (∀ s ∈ (deleteStudent authedCtx enrolledStore 1).2.students, s.id ≠ 1) := by
  have h := cascade_delete authedCtx enrolledStore 1 (by decide)
  exact ⟨h.2.1, h.2.2.1 (by decide)⟩

/-- C7: enrollStudent is idempotent: re-running it leaves the store exactly as
after the first run; on a pair the course side already records, a run changes
nothing at all; and no duplicate reference is ever created (duplicate-free
students sets stay duplicate-free). -/
theorem enroll_idempotent (ctx : Context) (st : Store) (sid cid : Nat) :
    ((enrollStudent ctx (enrollStudent ctx st sid cid).2 sid cid).2 =
      (enrollStudent ctx st sid cid).2) ∧
    ((∀ c ∈ st.courses, c.id = cid → sid ∈ c.students) →
      (enrollStudent ctx st sid cid).2 = st) ∧
    ((∀ c ∈ st.courses, c.students.Nodup) →
      ∀ c ∈ (enrollStudent ctx st sid cid).2.courses, c.students.Nodup) := by
  cases hu : ctx.user with
  | none =>
    have he : ∀ s' : Store, (enrollStudent ctx s' sid cid).2 = s' := by
      intro s'
      simp [enrollStudent, hu]
    refine ⟨by rw [he, he], fun _ => he st, fun hnd c hc => ?_⟩
    rw [he st] at hc
    exact hnd c hc
  | some u =>
    refine ⟨?_, ?_, ?_⟩
    · have hcomp := updateFirstBy_self Course.id cid
        (fun c => { c with students := addToSet sid c.students })
        (fun c => rfl) (fun c => by simp [addToSet_self]) st.courses
      simp [enrollStudent, hu, hcomp]
    · intro h2
      have heq := updateFirstBy_eq_self Course.id cid
        (fun c => { c with students := addToSet sid c.students }) st.courses
        (fun c hc hid => by simp [addToSet, h2 c hc hid])
      simp [enrollStudent, hu, heq]
    · intro hnd c hc
      simp only [enrollStudent, hu, Option.isNone_some, Bool.false_eq_true, if_false] at hc
      rcases mem_updateFirstBy Course.id cid _ st.courses c hc with h1 | ⟨c0, hc0, rfl⟩
      · exact hnd c h1
      · exact nodup_addToSet sid c0.students (hnd c0 hc0)

/-- Witness for C7: on a store where course 2 already records student 1,
an authenticated enrollStudent(1, 2) leaves the store unchanged. -/
theorem enroll_idempotent_checks :
    (enrollStudent authedCtx enrolledStore 1 2).2 = enrolledStore :=
  (enroll_idempotent authedCtx enrolledStore 1 2).2.1 (by decide)

/-- C9: updateStudent and updateCourse modify only the fields explicitly
supplied in the input: the returned document is the stored one with exactly
the supplied paths set and every omitted field keeping its prior value, the
other collection is untouched, and every non-matching document survives
unchanged — e.g. an input supplying only major sets major and keeps name,
email and age. -/
theorem update_applies_only_supplied (ctx : Context) (st : Store) (id : Nat)
    (sIn : StudentUpdateInput) (cIn : CourseUpdateInput) (h : ctx.user ≠ none) :
    ((updateStudent ctx st id sIn).2.courses = st.courses) ∧
    (∀ s, st.students.find? (fun x => x.id == id) = some s →
      (updateStudent ctx st id sIn).1 = .ok (some (applyStudentUpdate sIn s))) ∧
    (∀ s' ∈ st.students, s'.id ≠ id → s' ∈ (updateStudent ctx st id sIn).2.students) ∧
    (∀ s : Student,
      (applyStudentUpdate sIn s).id = s.id ∧
      (sIn.name = none → (applyStudentUpdate sIn s).name = s.name) ∧
      (sIn.email = none → (applyStudentUpdate sIn s).email = s.email) ∧
      (sIn.age = none → (applyStudentUpdate sIn s).age = s.age) ∧
      (sIn.major = none → (applyStudentUpdate sIn s).major = s.major) ∧
      (∀ v, sIn.name = some v → (applyStudentUpdate sIn s).name = v) ∧
      (∀ v, sIn.email = some v → (applyStudentUpdate sIn s).email = v) ∧
      (∀ v, sIn.age = some v → (applyStudentUpdate sIn s).age = v) ∧
      (∀ v, sIn.major = some v → (applyStudentUpdate sIn s).major = some v)) ∧
    ((updateCourse ctx st id cIn).2.students = st.students) ∧
    (∀ c, st.courses.find? (fun x => x.id == id) = some c →
      (updateCourse ctx st id cIn).1 = .ok (some (applyCourseUpdate cIn c))) ∧
    (∀ c' ∈ st.courses, c'.id ≠ id → c' ∈ (updateCourse ctx st id cIn).2.courses) ∧
    (∀ c : Course,
      (applyCourseUpdate cIn c).id = c.id ∧
      (cIn.title = none → (applyCourseUpdate cIn c).title = c.title) ∧
      (cIn.code = none → (applyCourseUpdate cIn c).code = c.code) ∧
      (cIn.credits = none → (applyCourseUpdate cIn c).credits = c.credits) ∧
      (cIn.instructor = none → (applyCourseUpdate cIn c).instructor = c.instructor) ∧
      (∀ v, cIn.title = some v → (applyCourseUpdate cIn c).title = v) ∧
      (∀ v, cIn.code = some v → (applyCourseUpdate cIn c).code = v) ∧
      (∀ v, cIn.credits = some v → (applyCourseUpdate cIn c).credits = v) ∧
      (∀ v, cIn.instructor = some v → (applyCourseUpdate cIn c).instructor = v)) := by
  cases hu : ctx.user with
  | none => exact absurd hu h
  | some u =>
    refine ⟨by simp [updateStudent, hu], ?_, ?_, ?_, by simp [updateCourse, hu], ?_, ?_, ?_⟩
    · intro s hs
      simp only [updateStudent, hu, Option.isNone_some, Bool.false_eq_true, if_false]
      rw [find?_updateFirstBy Student.id id (applyStudentUpdate sIn) (fun x => rfl), hs]
      rfl
    · intro s' hs' hne
      simp only [updateStudent, hu, Option.isNone_some, Bool.false_eq_true, if_false]
      exact mem_updateFirstBy_of_ne Student.id id _ st.students s' hs' hne
    · intro s
      refine ⟨rfl, ?_, ?_, ?_, ?_, ?_, ?_, ?_, ?_⟩ <;>
        first
          | (intro hv; simp [applyStudentUpdate, hv])
          | (intro v hv; simp [applyStudentUpdate, hv])
    · intro c hc
      simp only [updateCourse, hu, Option.isNone_some, Bool.false_eq_true, if_false]
      rw [find?_updateFirstBy Course.id id (applyCourseUpdate cIn) (fun x => rfl), hc]
      rfl
    · intro c' hc' hne
      simp only [updateCourse, hu, Option.isNone_some, Bool.false_eq_true, if_false]
      exact mem_updateFirstBy_of_ne Course.id id _ st.courses c' hc' hne
    · intro c
      refine ⟨rfl, ?_, ?_, ?_, ?_, ?_, ?_, ?_, ?_⟩ <;>
        first
          | (intro hv; simp [applyCourseUpdate, hv])
          | (intro v hv; simp [applyCourseUpdate, hv])

/-- Witness for C9 on the spec's scenario: updateStudent(1, input with only
major = "CS") returns Ana with major set to "CS" and name, email and age
untouched. -/
theorem update_applies_only_supplied_checks :
    (updateStudent authedCtx enrollDemoStore 1 { major := some "CS" }).1 =
      .ok (some (applyStudentUpdate { major := some "CS" } anaStudent)) ∧
    (applyStudentUpdate { major := some "CS" } anaStudent).name = anaStudent.name ∧
    (applyStudentUpdate { major := some "CS" } anaStudent).email = anaStudent.email ∧
    (applyStudentUpdate { major := some "CS" } anaStudent).age = anaStudent.age ∧
    (applyStudentUpdate { major := some "CS" } anaStudent).major = some "CS" := by
  have h := update_applies_only_supplied authedCtx enrollDemoStore 1
    { major := some "CS" } {} (by decide)
  refine ⟨h.2.1 anaStudent (by decide), ?_, ?_, ?_, ?_⟩
  · exact (h.2.2.2.1 anaStudent).2.1 rfl
  · exact (h.2.2.2.1 anaStudent).2.2.1 rfl
  · exact (h.2.2.2.1 anaStudent).2.2.2.1 rfl
  · exact (h.2.2.2.1 anaStudent).2.2.2.2.2.2.2.2 "CS" rfl

end GraphQLLab
